import Mathlib

/-!
# Verification of the kubewarden audit-scanner core

Shallow embedding of the audit engine (`internal/scanner/scanner.go`), the
policy matcher (`policyMatches`), the remote evaluator client
(`sendAdmissionReviewToPolicyServer`) and the report store
(`internal/report/store.go`) of the audit-scanner repository, together with
theorems settling the specification claims about them.

External collaborators (the Kubernetes API client, the policies client, the
HTTP stack, the persisted-report repository) are modelled as explicit
parameters: their outcomes are inputs to the embedded functions, exactly as
observed at the call sites in the source.  Functions of the repository's
`report` package that are referenced by the scanner but whose source file is
not available (`NewPolicyReport`, `AddResultToPolicyReport`,
`CreateOrPatchPolicyReport`) are modelled from the specification and marked
as such in their doc comments.
-/

set_option autoImplicit false

namespace AuditScanner

/-! ## Resources and label selectors

`unstructured.Unstructured` is modelled with the fields the scanner reads:
kind, namespace, name and labels.  Labels are an association list standing
for the Go `map[string]string` (distinct keys). -/

structure Unstructured where
  kind : String
  resNamespace : String
  name : String
  labels : List (String × String)
deriving DecidableEq, Repr

/-- `metav1.LabelSelectorRequirement`: the operator is a plain string in the
Kubernetes API ("In", "NotIn", "Exists", "DoesNotExist"). -/
structure LabelSelectorRequirement where
  key : String
  operator : String
  values : List String
deriving DecidableEq, Repr

/-- `metav1.LabelSelector`. -/
structure LabelSelector where
  matchLabels : List (String × String)
  matchExpressions : List LabelSelectorRequirement
deriving DecidableEq, Repr

/-- Operators of compiled `labels.Requirement` values
(`k8s.io/apimachinery/pkg/selection`). -/
inductive SelOp where
  | selEquals
  | selIn
  | selNotIn
  | selExists
  | selDoesNotExist
deriving DecidableEq, Repr

/-- A compiled `labels.Requirement`. -/
structure Requirement where
  key : String
  op : SelOp
  values : List String
deriving DecidableEq, Repr

/-- `labels.NewRequirement` (k8s.io/apimachinery): validates the arity of the
value set against the operator.  (The syntactic validation of label keys and
values is not modelled; it only enlarges the set of malformed selectors.) -/
def NewRequirement (key : String) (op : SelOp) (vals : List String) :
    Except String Requirement :=
  match op with
  | .selIn | .selNotIn =>
      if vals.isEmpty then
        .error "for in and notin operators, values set cannot be empty"
      else .ok ⟨key, op, vals⟩
  | .selEquals =>
      if vals.length = 1 then .ok ⟨key, op, vals⟩
      else .error "exact-match compatibility requires one single value"
  | .selExists | .selDoesNotExist =>
      if vals.isEmpty then .ok ⟨key, op, vals⟩
      else .error "values set must be empty for exists and does not exist"

/-- `metav1.LabelSelectorAsSelector`: matchLabels entries become equality
requirements, matchExpressions are translated operator by operator; an
unrecognised operator or an invalid requirement aborts with an error.  An
empty selector compiles to the empty requirement list (`Everything`). -/
def LabelSelectorAsSelector (ps : LabelSelector) :
    Except String (List Requirement) := do
  let rs1 ← ps.matchLabels.foldlM
    (fun (acc : List Requirement) kv => do
      let r ← NewRequirement kv.1 .selEquals [kv.2]
      pure (acc ++ [r])) []
  ps.matchExpressions.foldlM
    (fun (acc : List Requirement) expr => do
      let op ← (match expr.operator with
        | "In" => Except.ok SelOp.selIn
        | "NotIn" => Except.ok SelOp.selNotIn
        | "Exists" => Except.ok SelOp.selExists
        | "DoesNotExist" => Except.ok SelOp.selDoesNotExist
        | _ => Except.error "is not a valid label selector operator")
      let r ← NewRequirement expr.key op expr.values
      pure (acc ++ [r])) rs1

/-- Lookup in a label set (`labels.Set.Get` / `Has`). -/
def labelsLookup (ls : List (String × String)) (k : String) : Option String :=
  (ls.find? fun kv => kv.1 == k).map (fun kv => kv.2)

/-- `labels.Requirement.Matches` on a label set. -/
def Requirement.matchesLabels (r : Requirement) (ls : List (String × String)) :
    Bool :=
  match r.op with
  | .selIn | .selEquals =>
      match labelsLookup ls r.key with
      | none => false
      | some v => r.values.contains v
  | .selNotIn =>
      match labelsLookup ls r.key with
      | none => true
      | some v => !(r.values.contains v)
  | .selExists => (labelsLookup ls r.key).isSome
  | .selDoesNotExist => (labelsLookup ls r.key).isNone

/-- `labels.Selector.Matches`: the conjunction of all requirements. -/
def selectorMatches (reqs : List Requirement) (ls : List (String × String)) :
    Bool :=
  reqs.all (fun r => r.matchesLabels ls)

/-! ## Policies and the policy matcher -/

/-- The slice of `policiesv1.Policy` the matcher reads: a name and the
optional object selector (`GetObjectSelector`). -/
structure Policy where
  name : String
  objectSelector : Option LabelSelector
deriving DecidableEq, Repr

/-- `policyMatches` (scanner.go lines 314-332): no selector means match;
a selector that fails to compile yields `(false, err)`; otherwise the
compiled selector is tested against the resource's labels. -/
def policyMatches (policy : Policy) (resource : Unstructured) :
    Bool × Option String :=
  match policy.objectSelector with
  | none => (true, none)
  | some sel =>
      match LabelSelectorAsSelector sel with
      | .error err => (false, some err)
      | .ok selector =>
          if !(selectorMatches selector resource.labels) then (false, none)
          else (true, none)

/-! ## The remote evaluator client -/

/-- `admissionv1.AdmissionResponse`, restricted to the fields the scanner
reads from the evaluator's reply. -/
structure AdmissionResponse where
  uid : String
  allowed : Bool
deriving DecidableEq, Repr

/-- `admissionv1.AdmissionReview` as parsed from the policy server's reply.
In Go `Response` is a pointer; the review returned on the success path of
`sendAdmissionReviewToPolicyServer` is the deserialized body. -/
structure AdmissionReview where
  response : AdmissionResponse
deriving DecidableEq, Repr

/-- Outcome of the HTTP round trip as seen at the call site:
`httpClient.Do` may fail, reading the body may fail, or a status code and a
body are obtained. -/
inductive HTTPResult where
  | doError (e : String)
  | readError (statusCode : Nat) (e : String)
  | success (statusCode : Nat) (body : String)
deriving DecidableEq, Repr

/-- `sendAdmissionReviewToPolicyServer` (scanner.go lines 334-362), with the
transport outcome and the JSON decoder as explicit inputs.  The code first
propagates a transport (`Do`) failure, then a body-read failure, then
rejects a status other than 200, then attempts deserialization.
(`json.Marshal` of the request, which cannot fail on these struct types, is
modelled as always succeeding; the ignored error of
`http.NewRequestWithContext` is likewise elided.) -/
def sendAdmissionReviewToPolicyServer
    (unmarshal : String → Except String AdmissionReview)
    (http : HTTPResult) : Except String AdmissionReview :=
  match http with
  | .doError e => .error e
  | .readError _ e => .error ("cannot read body of response: " ++ e)
  | .success status body =>
      if status ≠ 200 then .error "unexpected status code"
      else
        match unmarshal body with
        | .error e =>
            .error ("cannot deserialize the audit review response: " ++ e)
        | .ok ar => .ok ar

/-- Spec-side predicate: the transport failed (connection/timeout failure of
the round trip, or failure while reading the response body). -/
def transportFailed : HTTPResult → Bool
  | .doError _ => true
  | .readError _ _ => true
  | .success _ _ => false

/-- Spec-side predicate: a response was obtained and its status is not 200. -/
def statusNot200 : HTTPResult → Bool
  | .success s _ => s ≠ 200
  | _ => false

/-- Spec-side predicate: a response was obtained but its body does not
deserialize. -/
def bodyUnparsable (unmarshal : String → Except String AdmissionReview) :
    HTTPResult → Bool
  | .success _ b => match unmarshal b with | .ok _ => false | .error _ => true
  | _ => false

/-- Is an `Except` a success? -/
def exOk {ε α : Type} : Except ε α → Bool
  | .ok _ => true
  | .error _ => false

/-! ## Reports

The `report` package file defining these helpers is not among the provided
sources; they are modelled from the specification. -/

/-- A result row of a report (spec §3 ResultEntry): the policy it refers to,
the errored flag, and the verdict. -/
structure PolicyReportResult where
  policy : String
  errored : Bool
  allowed : Bool
deriving DecidableEq, Repr

/-- A namespaced PolicyReport: name, namespace (`GetNamespace`), and its
result rows. -/
structure PolicyReport where
  name : String
  resNamespace : String
  results : List PolicyReportResult
deriving DecidableEq, Repr

/-- The singleton cluster-wide report. -/
structure ClusterPolicyReport where
  name : String
  results : List PolicyReportResult
deriving DecidableEq, Repr

/-- Modelled from the spec: `report.NewPolicyReport` is absent from the
provided sources.  Per §3 (Lifecycle) a report is "created fresh" with no
ResultEntries; the scanner calls it with the audited resource
(scanner.go line 266), so the fresh report is keyed by that resource's
name and namespace. -/
def NewPolicyReport (resource : Unstructured) : PolicyReport :=
  ⟨resource.name, resource.resNamespace, []⟩

/-- Modelled from the spec: `report.NewClusterPolicyReport` is absent from
the provided sources.  Per §3 it creates the fresh, empty cluster-wide
report; the store constructor calls it with the name "clusterwide"
(store.go lines 55 and 68). -/
def NewClusterPolicyReport (name : String) : ClusterPolicyReport :=
  ⟨name, []⟩

/-- Modelled from the spec: `report.AddResultToPolicyReport` is absent from
the provided sources.  Per §3 a ResultEntry referencing the policy and
carrying the verdict and the errored flag is appended to the report. -/
def AddResultToPolicyReport (pr : PolicyReport) (policy : Policy)
    (resp : AdmissionResponse) (errored : Bool) : PolicyReport :=
  { pr with results := pr.results ++ [⟨policy.name, errored, resp.allowed⟩] }

/-! ## The audit engine -/

/-- Result of auditing one resource against a policy list
(`auditResource`, scanner.go lines 265-312).  `finished` is `none` when the
Go code panics: on an evaluator error `sendAdmissionReviewToPolicyServer`
returns a nil `*AdmissionReview`, and the argument expression
`auditResponse.Response` of the `AddResultToPolicyReport` call
(line 305) dereferences that nil pointer.  `calls` records the evaluator
calls issued, in order. -/
structure AuditOutcome where
  finished : Option PolicyReport
  calls : List (Policy × Unstructured)
deriving DecidableEq, Repr

/-- The policy loop of `auditResource` (scanner.go lines 268-306).
A non-matching policy (including one whose selector failed to compile,
where the error is only logged) is skipped; for a match, the evaluator is
called; a successful call appends a non-errored result; a failed call
reaches the nil dereference described at `AuditOutcome.finished`. -/
def auditResourceLoop
    (evalSrv : Policy → Unstructured → Except String AdmissionReview)
    (resource : Unstructured) :
    List Policy → PolicyReport → List (Policy × Unstructured) → AuditOutcome
  | [], pr, calls => ⟨some pr, calls⟩
  | p :: rest, pr, calls =>
      if !(policyMatches p resource).1 then
        auditResourceLoop evalSrv resource rest pr calls
      else
        match evalSrv p resource with
        | .error _ => ⟨none, calls ++ [(p, resource)]⟩
        | .ok ar =>
            auditResourceLoop evalSrv resource rest
              (AddResultToPolicyReport pr p ar.response false)
              (calls ++ [(p, resource)])

/-- `auditResource` (scanner.go lines 265-312): create the fresh report for
the resource and run the policy loop. -/
def auditResource
    (evalSrv : Policy → Unstructured → Except String AdmissionReview)
    (policies : List Policy) (resource : Unstructured) : AuditOutcome :=
  auditResourceLoop evalSrv resource policies (NewPolicyReport resource) []

/-- How one scope scan ends: a Go panic (nil dereference), a returned
error, or normal completion. -/
inductive ScanResult where
  | panicked
  | errored (e : String)
  | finished
deriving DecidableEq, Repr

/-- Observable outcome of a scope scan: how it ended, and which reports were
handed to the Report Store (`CreateOrPatchPolicyReport`), in order. -/
structure ScanOut where
  result : ScanResult
  stored : List PolicyReport
deriving DecidableEq, Repr

/-- The `EachListItem` body of `ScanNamespace` (scanner.go lines 136-144)
over an already-listed page of resources: audit each resource in turn; after
each completed audit the resource's report is handed to
`CreateOrPatchPolicyReport` (whose own failure is only logged and is
modelled from the spec as recording the hand-off). -/
def auditResources
    (evalSrv : Policy → Unstructured → Except String AdmissionReview)
    (ps : List Policy) :
    List Unstructured → List PolicyReport → ScanOut
  | [], stored => ⟨.finished, stored⟩
  | r :: rest, stored =>
      match (auditResource evalSrv ps r).finished with
      | none => ⟨.panicked, stored⟩
      | some pr => auditResources evalSrv ps rest (stored ++ [pr])

/-- Collaborator outcomes consumed by `ScanNamespace`: whether
`GetNamespace` succeeds, the result of `GetPoliciesForANamespace` (policies
grouped by GVR), and the result of listing the resources of each GVR. -/
structure NamespaceScanInput where
  nsExists : Bool
  policiesFetch : Except String (List (String × List Policy))
  resourcesOf : String → Except String (List Unstructured)

/-- The GVR loop of `ScanNamespace` (scanner.go lines 130-148): a resource
listing failure aborts the scan with that error; otherwise every listed
resource is audited. -/
def scanGroups (inp : NamespaceScanInput)
    (evalSrv : Policy → Unstructured → Except String AdmissionReview) :
    List (String × List Policy) → List PolicyReport → ScanOut
  | [], stored => ⟨.finished, stored⟩
  | (gvr, ps) :: rest, stored =>
      match inp.resourcesOf gvr with
      | .error e => ⟨.errored e, stored⟩
      | .ok rs =>
          let out := auditResources evalSrv ps rs stored
          match out.result with
          | .finished => scanGroups inp evalSrv rest out.stored
          | _ => out

/-- `ScanNamespace` (scanner.go lines 103-151): a missing namespace or a
failed policy fetch is returned as an error; otherwise each GVR group is
scanned. -/
def ScanNamespace (inp : NamespaceScanInput)
    (evalSrv : Policy → Unstructured → Except String AdmissionReview) :
    ScanOut :=
  if !inp.nsExists then ⟨.errored "namespace not found", []⟩
  else
    match inp.policiesFetch with
    | .error e => ⟨.errored e, []⟩
    | .ok groups => scanGroups inp evalSrv groups []

/-- `errors.Join` flattened to a list of messages, `[]` standing for a nil
error. -/
def optErrList : Option String → List String
  | none => []
  | some e => [e]

/-- `ScanAllNamespaces` (scanner.go lines 157-172), with the collaborators
explicit: `nsItems`/`enumErr` are the list and error returned by
`GetAuditedNamespaces` (the error is only logged, then seeded into the
aggregate), and `scanNs` gives the error returned by `s.ScanNamespace` for
each namespace (`none` for a nil error).  Returns the aggregated error
(`errors.Join`, as a message list) and the namespaces attempted, in order. -/
def ScanAllNamespaces (nsItems : List String) (enumErr : Option String)
    (scanNs : String → Option String) : List String × List String :=
  nsItems.foldl
    (fun acc ns =>
      match scanNs ns with
      | none => (acc.1, acc.2 ++ [ns])
      | some e => (acc.1 ++ [e], acc.2 ++ [ns]))
    (optErrList enumErr, [])

/-! ## The report store (store.go)

The Go map of namespaced reports is modelled as a function from namespace
to an optional report; the mutexes guard the map accesses and have no
observable effect on the sequential semantics of each operation. -/

/-- `PolicyReportStore` (store.go lines 23-34), without the external client
(its behaviour is passed explicitly to `Save`). -/
structure PolicyReportStore where
  namespacedPolicyReports : String → Option PolicyReport
  clusterPolicyReport : ClusterPolicyReport

/-- `MockNewPolicyReportStore` (store.go lines 65-73): the empty map and the
freshly constructed cluster report. -/
def MockNewPolicyReportStore : PolicyReportStore :=
  ⟨fun _ => none, NewClusterPolicyReport "clusterwide"⟩

/-- `AddPolicyReport` (store.go lines 76-81): store the report under its
namespace; always returns a nil error. -/
def AddPolicyReport (s : PolicyReportStore) (report : PolicyReport) :
    PolicyReportStore × Option String :=
  ({ s with
      namespacedPolicyReports := fun ns =>
        if ns = report.resNamespace then some report
        else s.namespacedPolicyReports ns },
   none)

/-- `UpdatePolicyReport` (store.go lines 111-116): store the report under
its namespace; always returns a nil error. -/
def UpdatePolicyReport (s : PolicyReportStore) (report : PolicyReport) :
    PolicyReportStore × Option String :=
  ({ s with
      namespacedPolicyReports := fun ns =>
        if ns = report.resNamespace then some report
        else s.namespacedPolicyReports ns },
   none)

/-- `AddClusterPolicyReport` (store.go lines 84-89): replace the cluster
report; always returns a nil error. -/
def AddClusterPolicyReport (s : PolicyReportStore)
    (report : ClusterPolicyReport) : PolicyReportStore × Option String :=
  ({ s with clusterPolicyReport := report }, none)

/-- `GetPolicyReport` (store.go lines 92-100): the cached report for the
namespace, or the error "report not found". -/
def GetPolicyReport (s : PolicyReportStore) (ns : String) :
    Except String PolicyReport :=
  match s.namespacedPolicyReports ns with
  | some r => .ok r
  | none => .error "report not found"

/-- `GetClusterPolicyReport` (store.go lines 103-108): unconditionally
returns the cached cluster report with a nil error. -/
def GetClusterPolicyReport (s : PolicyReportStore) :
    Except String ClusterPolicyReport :=
  .ok s.clusterPolicyReport

/-! ## Save: reconciliation against the external repository -/

/-- Errors of the external repository client, as the code distinguishes
them: a not-found error (`errorMachinery.IsNotFound`), an
optimistic-concurrency conflict (what `retry.RetryOnConflict` retries), or
anything else. -/
inductive RepoErr where
  | notFound
  | conflict
  | other (e : String)
deriving DecidableEq, Repr

/-- The persisted object, restricted to what `Save` reads from it: its
resource version (the optimistic-concurrency token). -/
structure PersistedReport where
  resourceVersion : String
deriving DecidableEq, Repr

/-- `retry.DefaultRetry.Steps` (k8s.io/client-go/util/retry): the bounded
number of attempts `RetryOnConflict` makes. -/
def defaultRetrySteps : Nat := 5

/-- The retry loop of `Save` (store.go lines 178-196) under
`retry.RetryOnConflict`: at each attempt the closure re-reads the object
(`getAt`), and
* a not-found re-read is logged and ends the loop with a nil, error-free
  result (no update attempted);
* any other read error is wrapped (so it is no longer a conflict) and ends
  the loop with that error;
* otherwise the report's resource version is set to the token just read and
  `client.Update` runs (`updateAt`): success ends the loop, a conflict
  consumes one attempt and retries, any other error ends the loop with it.
Exhaustion of the attempt budget yields the last conflict error
(`wait.ErrWaitTimeout` is replaced by the last error).  The second
component records the version token used by each update attempt, in
order. -/
def retryOnConflictTrace (getAt : Nat → Except RepoErr PersistedReport)
    (updateAt : Nat → Option RepoErr) :
    Nat → Nat → Option RepoErr × List String
  | 0, _ => (some .conflict, [])
  | fuel + 1, i =>
      match getAt i with
      | .error .notFound => (none, [])
      | .error .conflict =>
          (some (.other "failed when getting PolicyReport"), [])
      | .error (.other _) =>
          (some (.other "failed when getting PolicyReport"), [])
      | .ok obj =>
          match updateAt i with
          | none => (none, [obj.resourceVersion])
          | some .conflict =>
              let rec_ := retryOnConflictTrace getAt updateAt fuel (i + 1)
              (rec_.1, obj.resourceVersion :: rec_.2)
          | some e => (some e, [obj.resourceVersion])

/-- Observable outcome of `Save`: the error it returns, whether the create
path ran, the retry loop's final (logged-only) error, and the version
tokens used by the update attempts. -/
structure SaveOut where
  result : Option String
  created : Bool
  retryErr : Option RepoErr
  updateVersions : List String
deriving DecidableEq, Repr

/-- `Save` (store.go lines 161-209), with the repository client's behaviour
explicit: `getInit` is the initial `client.Get`, `createRes` the outcome of
`client.Create`, `getAt`/`updateAt` the outcomes of the re-read and the
update of attempt `i` inside the retry loop.  When the initial get is
not-found the report is created and a create failure is returned wrapped;
on every other initial outcome the update path runs and `Save` returns a
nil error regardless of the retry loop's result, which is only logged. -/
def Save (getInit : Except RepoErr PersistedReport)
    (createRes : Option String)
    (getAt : Nat → Except RepoErr PersistedReport)
    (updateAt : Nat → Option RepoErr) : SaveOut :=
  match getInit with
  | .error .notFound =>
      match createRes with
      | some e => ⟨some ("failed when creating PolicyReport: " ++ e), true,
                   none, []⟩
      | none => ⟨none, true, none, []⟩
  | _ =>
      let retry := retryOnConflictTrace getAt updateAt defaultRetrySteps 0
      ⟨none, false, retry.1, retry.2⟩

/-! ## Spec-side expected values for a fully successful scan -/

/-- The ResultEntries the spec expects for one audited resource when every
evaluator call succeeds: one non-errored entry per matching policy, in
policy order, carrying the verdict returned for that pair. -/
def expectedResults (arOf : Policy → Unstructured → AdmissionReview)
    (ps : List Policy) (r : Unstructured) : List PolicyReportResult :=
  (ps.filter fun p => (policyMatches p r).1).map
    fun p => ⟨p.name, false, (arOf p r).response.allowed⟩

/-- The report the code produces for one audited resource when every
evaluator call succeeds. -/
def expectedReport (arOf : Policy → Unstructured → AdmissionReview)
    (ps : List Policy) (r : Unstructured) : PolicyReport :=
  ⟨r.name, r.resNamespace, expectedResults arOf ps r⟩

/-- The sequence of reports handed to the store by a fully successful
namespace scan: one per listed resource of each GVR group, in order. -/
def expectedStored (arOf : Policy → Unstructured → AdmissionReview)
    (groups : List (String × List Policy))
    (rsOf : String → List Unstructured) : List PolicyReport :=
  (groups.map fun gp => (rsOf gp.1).map (expectedReport arOf gp.2)).flatten

/-! ## Concrete inputs used by counterexamples and witnesses -/

/-- A pod with no labels in namespace ns1. -/
def pod1 : Unstructured := ⟨"Pod", "ns1", "pod1", []⟩

/-- A second pod in namespace ns1. -/
def pod2 : Unstructured := ⟨"Pod", "ns1", "pod2", []⟩

/-- A policy with no object selector. -/
def noSelPolicy : Policy := ⟨"p0", none⟩

/-- A policy whose well-formed selector requires label app=web. -/
def selPolicy : Policy := ⟨"p1", some ⟨[("app", "web")], []⟩⟩

/-- The compiled requirements of `selPolicy`. -/
def selPolicyReqs : List Requirement := [⟨"app", .selEquals, ["web"]⟩]

/-- A policy whose selector uses an unrecognised operator and therefore
fails to compile. -/
def badSelPolicy : Policy := ⟨"p2", some ⟨[], [⟨"app", "BadOp", []⟩]⟩⟩

/-- An evaluator that always answers allowed=true. -/
def evalAllow : Policy → Unstructured → Except String AdmissionReview :=
  fun _ _ => .ok ⟨⟨"uid-1", true⟩⟩

/-- The verdicts of `evalAllow`, as a total function. -/
def arAllow : Policy → Unstructured → AdmissionReview :=
  fun _ _ => ⟨⟨"uid-1", true⟩⟩

/-- An evaluator whose every call fails (for example a connection
failure). -/
def evalFail : Policy → Unstructured → Except String AdmissionReview :=
  fun _ _ => .error "connection refused"

/-- Scenario A of the spec: namespace ns1, one no-selector policy bound to
pods, two existing pods. -/
def scenarioA : NamespaceScanInput :=
  ⟨true, .ok [("pods", [noSelPolicy])],
   fun gvr => if gvr = "pods" then .ok [pod1, pod2] else .ok []⟩

/-- The resource listing of `scenarioA` as a plain function. -/
def scenarioARes : String → List Unstructured :=
  fun gvr => if gvr = "pods" then [pod1, pod2] else []

/-- A per-namespace scan outcome that always succeeds. -/
def scanNsAllOk : String → Option String := fun _ => none

/-- A JSON decoder that always yields an allowed review. -/
def unmarshalW : String → Except String AdmissionReview :=
  fun _ => .ok ⟨⟨"uid-1", true⟩⟩

/-- A repository re-read that always succeeds, with a distinct version token
per attempt. -/
def getAtW : Nat → Except RepoErr PersistedReport :=
  fun i => .ok ⟨Nat.repr i⟩

/-- A repository update that answers every attempt with an
optimistic-concurrency conflict. -/
def updateAtW : Nat → Option RepoErr :=
  fun _ => some .conflict

/-! ## Helper lemmas on the audit loop -/

/-- Every evaluator call recorded by the policy loop was either already
recorded or is for a policy that matched the audited resource. -/
theorem auditResourceLoop_calls_mem
    (evalSrv : Policy → Unstructured → Except String AdmissionReview)
    (resource : Unstructured) (ps : List Policy) :
    ∀ (pr : PolicyReport) (calls : List (Policy × Unstructured))
      (q : Policy) (rr : Unstructured),
      (q, rr) ∈ (auditResourceLoop evalSrv resource ps pr calls).calls →
      (q, rr) ∈ calls ∨
        ((policyMatches q resource).1 = true ∧ rr = resource) := by
  induction ps with
  | nil => intro pr calls q rr h; exact Or.inl h
  | cons p rest ih =>
      intro pr calls q rr h
      cases hm : (policyMatches p resource).1 with
      | false =>
          have hstep : auditResourceLoop evalSrv resource (p :: rest) pr calls
              = auditResourceLoop evalSrv resource rest pr calls := by
            simp [auditResourceLoop, hm]
          rw [hstep] at h
          exact ih _ _ _ _ h
      | true =>
          cases he : evalSrv p resource with
          | error e =>
              have hstep :
                  (auditResourceLoop evalSrv resource (p :: rest) pr
                    calls).calls = calls ++ [(p, resource)] := by
                simp [auditResourceLoop, hm, he]
              rw [hstep] at h
              simp only [List.mem_append, List.mem_singleton,
                Prod.mk.injEq] at h
              rcases h with h | ⟨hq, hr⟩
              · exact Or.inl h
              · subst hq; subst hr; exact Or.inr ⟨hm, rfl⟩
          | ok ar =>
              have hstep : auditResourceLoop evalSrv resource (p :: rest) pr
                    calls
                  = auditResourceLoop evalSrv resource rest
                      (AddResultToPolicyReport pr p ar.response false)
                      (calls ++ [(p, resource)]) := by
                simp [auditResourceLoop, hm, he]
              rw [hstep] at h
              rcases ih _ _ _ _ h with h2 | h2
              · simp only [List.mem_append, List.mem_singleton,
                  Prod.mk.injEq] at h2
                rcases h2 with h2 | ⟨hq, hr⟩
                · exact Or.inl h2
                · subst hq; subst hr; exact Or.inr ⟨hm, rfl⟩
              · exact Or.inr h2

/-- When every evaluator call succeeds, the policy loop finishes and appends
exactly one non-errored ResultEntry per matching policy. -/
theorem auditResourceLoop_finished_ok
    (evalSrv : Policy → Unstructured → Except String AdmissionReview)
    (arOf : Policy → Unstructured → AdmissionReview)
    (resource : Unstructured)
    (heval : ∀ p r, evalSrv p r = .ok (arOf p r)) (ps : List Policy) :
    ∀ (pr : PolicyReport) (calls : List (Policy × Unstructured)),
      (auditResourceLoop evalSrv resource ps pr calls).finished =
        some { pr with
                results := pr.results ++ expectedResults arOf ps resource } := by
  induction ps with
  | nil => intro pr calls; simp [auditResourceLoop, expectedResults]
  | cons p rest ih =>
      intro pr calls
      cases hm : (policyMatches p resource).1 with
      | false =>
          have hstep : auditResourceLoop evalSrv resource (p :: rest) pr calls
              = auditResourceLoop evalSrv resource rest pr calls := by
            simp [auditResourceLoop, hm]
          rw [hstep, ih]
          simp [expectedResults, List.filter_cons, hm]
      | true =>
          have hstep : auditResourceLoop evalSrv resource (p :: rest) pr calls
              = auditResourceLoop evalSrv resource rest
                  (AddResultToPolicyReport pr p (arOf p resource).response
                    false)
                  (calls ++ [(p, resource)]) := by
            simp [auditResourceLoop, hm, heval p resource]
          rw [hstep, ih]
          simp [expectedResults, List.filter_cons, hm,
            AddResultToPolicyReport]

/-- When every evaluator call succeeds, auditing a page of resources stores
one fully assembled report per resource, in order. -/
theorem auditResources_ok
    (evalSrv : Policy → Unstructured → Except String AdmissionReview)
    (arOf : Policy → Unstructured → AdmissionReview)
    (heval : ∀ p r, evalSrv p r = .ok (arOf p r)) (ps : List Policy) :
    ∀ (rs : List Unstructured) (stored : List PolicyReport),
      auditResources evalSrv ps rs stored =
        ⟨.finished, stored ++ rs.map (expectedReport arOf ps)⟩ := by
  intro rs
  induction rs with
  | nil => intro stored; simp [auditResources]
  | cons r rest ih =>
      intro stored
      have hfin : (auditResource evalSrv ps r).finished =
          some (expectedReport arOf ps r) := by
        rw [auditResource, auditResourceLoop_finished_ok evalSrv arOf r heval]
        simp [NewPolicyReport, expectedReport]
      simp only [auditResources, hfin]
      rw [ih]
      simp

/-- When every evaluator call succeeds and every resource listing succeeds,
the GVR loop stores exactly the expected per-resource reports. -/
theorem scanGroups_ok (inp : NamespaceScanInput)
    (evalSrv : Policy → Unstructured → Except String AdmissionReview)
    (arOf : Policy → Unstructured → AdmissionReview)
    (rsOf : String → List Unstructured)
    (heval : ∀ p r, evalSrv p r = .ok (arOf p r)) :
    ∀ (groups : List (String × List Policy)) (stored : List PolicyReport),
      (∀ gp ∈ groups, inp.resourcesOf gp.1 = .ok (rsOf gp.1)) →
      scanGroups inp evalSrv groups stored =
        ⟨.finished, stored ++ expectedStored arOf groups rsOf⟩ := by
  intro groups
  induction groups with
  | nil => intro stored _; simp [scanGroups, expectedStored]
  | cons gp rest ih =>
      intro stored hres
      obtain ⟨gvr, ps⟩ := gp
      have hr : inp.resourcesOf gvr = .ok (rsOf gvr) :=
        hres (gvr, ps) (List.mem_cons_self _ _)
      simp only [scanGroups, hr, auditResources_ok evalSrv arOf heval ps]
      rw [ih _ (fun g hg => hres g (List.mem_cons_of_mem _ hg))]
      simp [expectedStored]

/-! ## Helper lemmas on the retry loop and the all-namespaces fold -/

/-- The retry loop attempts at most `fuel` updates. -/
theorem retryTrace_length_le (getAt : Nat → Except RepoErr PersistedReport)
    (updateAt : Nat → Option RepoErr) :
    ∀ (fuel i : Nat),
      (retryOnConflictTrace getAt updateAt fuel i).2.length ≤ fuel := by
  intro fuel
  induction fuel with
  | zero => intro i; simp [retryOnConflictTrace]
  | succ n ih =>
      intro i
      rw [retryOnConflictTrace]
      cases hg : getAt i with
      | error e =>
          cases e <;> simp
      | ok obj =>
          cases hu : updateAt i with
          | none => simp
          | some e =>
              cases e with
              | conflict => simpa using Nat.succ_le_succ (ih (i + 1))
              | notFound => simp
              | other msg => simp

/-- Every version token the retry loop hands to an update is the one
re-read from the repository at that same attempt. -/
theorem retryTrace_versions (getAt : Nat → Except RepoErr PersistedReport)
    (updateAt : Nat → Option RepoErr) :
    ∀ (fuel i j : Nat) (v : String),
      (retryOnConflictTrace getAt updateAt fuel i).2.get? j = some v →
      ∃ obj, getAt (i + j) = .ok obj ∧ obj.resourceVersion = v := by
  intro fuel
  induction fuel with
  | zero => intro i j v h; simp [retryOnConflictTrace] at h
  | succ n ih =>
      intro i j v h
      rw [retryOnConflictTrace] at h
      cases hg : getAt i with
      | error e =>
          rw [hg] at h; cases e <;> simp at h
      | ok obj =>
          rw [hg] at h
          cases hu : updateAt i with
          | none =>
              rw [hu] at h
              cases j with
              | zero =>
                  simp at h
                  exact ⟨obj, by simpa using hg, h⟩
              | succ j2 => simp at h
          | some e =>
              rw [hu] at h
              cases e with
              | conflict =>
                  simp only at h
                  cases j with
                  | zero =>
                      simp at h
                      exact ⟨obj, by simpa using hg, h⟩
                  | succ j2 =>
                      have h2 := ih (i + 1) j2 v (by simpa using h)
                      obtain ⟨obj2, hg2, hv2⟩ := h2
                      exact ⟨obj2, by
                        have : i + 1 + j2 = i + (j2 + 1) := by omega
                        rwa [this] at hg2, hv2⟩
              | notFound =>
                  cases j with
                  | zero =>
                      simp at h
                      exact ⟨obj, by simpa using hg, h⟩
                  | succ j2 => simp at h
              | other msg =>
                  cases j with
                  | zero =>
                      simp at h
                      exact ⟨obj, by simpa using hg, h⟩
                  | succ j2 => simp at h

/-- When the re-read always succeeds and every update attempt answers with
a conflict, the retry loop exhausts its whole budget and ends on the
conflict error. -/
theorem retryTrace_allConflict (getAt : Nat → Except RepoErr PersistedReport)
    (updateAt : Nat → Option RepoErr)
    (hcfl : ∀ j, (∃ obj, getAt j = .ok obj) ∧ updateAt j = some .conflict) :
    ∀ (fuel i : Nat),
      (retryOnConflictTrace getAt updateAt fuel i).1 = some .conflict
      ∧ (retryOnConflictTrace getAt updateAt fuel i).2.length = fuel := by
  intro fuel
  induction fuel with
  | zero => intro i; simp [retryOnConflictTrace]
  | succ n ih =>
      intro i
      obtain ⟨⟨obj, hg⟩, hu⟩ := hcfl i
      rw [retryOnConflictTrace, hg, hu]
      simpa using ih (i + 1)

/-- Unrolling the fold of `ScanAllNamespaces`: every namespace of the list
is attempted, and the errors of the failing ones are appended in order. -/
theorem scanAll_foldl (scanNs : String → Option String) :
    ∀ (nsItems : List String) (acc : List String × List String),
      nsItems.foldl
        (fun acc ns =>
          match scanNs ns with
          | none => (acc.1, acc.2 ++ [ns])
          | some e => (acc.1 ++ [e], acc.2 ++ [ns])) acc
      = (acc.1 ++ nsItems.filterMap scanNs, acc.2 ++ nsItems) := by
  intro nsItems
  induction nsItems with
  | nil => intro acc; simp
  | cons ns rest ih =>
      intro acc
      rw [List.foldl_cons]
      cases h : scanNs ns with
      | none => rw [ih]; simp [List.filterMap_cons, h]
      | some e => rw [ih]; simp [List.filterMap_cons, h]

/-! ## The claims -/

/-- Claim C1: the specification says an evaluator error for a
(policy, resource) pair becomes an errored ResultEntry and scanning
proceeds with the next policy and resource.  The code instead evaluates
`auditResponse.Response` (scanner.go line 305) while `auditResponse` is the
nil pointer returned by the failed call, a nil dereference: evaluated on one
no-selector policy and one pod with a failing evaluator, the audit reaches
the panic (`finished = none`) after issuing the one call, no errored entry
is recorded, nothing is handed to the store, and the namespace scan of
scenario A dies instead of continuing. -/
theorem auditResource_evaluatorError_panics :
    (auditResource evalFail [noSelPolicy] pod1).finished = none
    ∧ (auditResource evalFail [noSelPolicy] pod1).calls =
        [(noSelPolicy, pod1)]
    ∧ ScanNamespace scenarioA evalFail = ⟨.panicked, []⟩ := by decide

/-- Claim C2, counterexample: in scenario A (namespace ns1, one no-selector
policy bound to pods, two pods, evaluator allowing both) the scan hands the
store two reports of one ResultEntry each — not a single report for the
namespace with two ResultEntries handed once. -/
theorem scanNamespace_twoPods_twoReports :
    (ScanNamespace scenarioA evalAllow).stored =
      [⟨"pod1", "ns1", [⟨"p0", false, true⟩]⟩,
       ⟨"pod2", "ns1", [⟨"p0", false, true⟩]⟩]
    ∧ (ScanNamespace scenarioA evalAllow).stored.length = 2
    ∧ ¬ (ScanNamespace scenarioA evalAllow).stored.length = 1 := by decide

/-- Claim C2 as amended: the scope's ResultEntries are not folded into one
per-scope Report; instead every audited resource yields its own Report,
assembled completely (one entry per matching policy, in order) and handed
to the Report Store exactly once after all policies for that resource are
audited.  A namespace scan whose collaborators and evaluator calls all
succeed stores exactly one such report per listed resource of each group,
in order. -/
theorem scanNamespace_perResourceReports
    (inp : NamespaceScanInput)
    (evalSrv : Policy → Unstructured → Except String AdmissionReview)
    (arOf : Policy → Unstructured → AdmissionReview)
    (groups : List (String × List Policy))
    (rsOf : String → List Unstructured)
    (hns : inp.nsExists = true)
    (hpol : inp.policiesFetch = .ok groups)
    (hres : ∀ gp ∈ groups, inp.resourcesOf gp.1 = .ok (rsOf gp.1))
    (heval : ∀ p r, evalSrv p r = .ok (arOf p r)) :
    ScanNamespace inp evalSrv =
      ⟨.finished, expectedStored arOf groups rsOf⟩ := by
  have h := scanGroups_ok inp evalSrv arOf rsOf heval groups [] hres
  simp [ScanNamespace, hns, hpol, h]

/-- Witness for the amended C2, at scenario A: the scan finishes and stores
exactly the expected per-resource reports. -/
theorem scanNamespace_perResourceReports_witness :
    scenarioA.nsExists = true
    ∧ scenarioA.policiesFetch = .ok [("pods", [noSelPolicy])]
    ∧ ScanNamespace scenarioA evalAllow =
        ⟨.finished,
         expectedStored arAllow [("pods", [noSelPolicy])] scenarioARes⟩ :=
  ⟨rfl, rfl,
   scanNamespace_perResourceReports scenarioA evalAllow arAllow
     [("pods", [noSelPolicy])] scenarioARes rfl rfl
     (by
       intro gp hgp
       by_cases h : gp.1 = "pods" <;>
         simp [scenarioA, scenarioARes, h])
     (fun _ _ => rfl)⟩

/-- Claim C3: one call of the remote evaluator client returns an error if
and only if the transport fails (the round trip or the body read), the HTTP
status is not 200, or the response body does not deserialize; on success it
returns exactly the parsed response. -/
theorem sendAdmissionReview_error_iff
    (unmarshal : String → Except String AdmissionReview)
    (http : HTTPResult) :
    (exOk (sendAdmissionReviewToPolicyServer unmarshal http) = false ↔
      (transportFailed http = true ∨ statusNot200 http = true ∨
        bodyUnparsable unmarshal http = true))
    ∧ (∀ ar, sendAdmissionReviewToPolicyServer unmarshal http = .ok ar →
        ∃ body, http = .success 200 body ∧ unmarshal body = .ok ar) := by
  cases http with
  | doError e =>
      refine ⟨by simp [sendAdmissionReviewToPolicyServer, exOk,
        transportFailed], ?_⟩
      intro ar h
      simp [sendAdmissionReviewToPolicyServer] at h
  | readError s e =>
      refine ⟨by simp [sendAdmissionReviewToPolicyServer, exOk,
        transportFailed], ?_⟩
      intro ar h
      simp [sendAdmissionReviewToPolicyServer] at h
  | success s b =>
      by_cases hs : s = 200
      · subst hs
        cases hu : unmarshal b with
        | error msg =>
            refine ⟨by simp [sendAdmissionReviewToPolicyServer, exOk,
              transportFailed, statusNot200, bodyUnparsable, hu], ?_⟩
            intro ar h
            simp [sendAdmissionReviewToPolicyServer, hu] at h
        | ok ar0 =>
            refine ⟨by simp [sendAdmissionReviewToPolicyServer, exOk,
              transportFailed, statusNot200, bodyUnparsable, hu], ?_⟩
            intro ar h
            have h2 : ar0 = ar := by
              have hb : sendAdmissionReviewToPolicyServer unmarshal
                  (.success 200 b) = .ok ar0 := by
                simp [sendAdmissionReviewToPolicyServer, hu]
              rw [hb] at h
              exact Except.ok.inj h
            exact ⟨b, rfl, by rw [hu, h2]⟩
      · refine ⟨by simp [sendAdmissionReviewToPolicyServer, exOk,
          transportFailed, statusNot200, bodyUnparsable, hs], ?_⟩
        intro ar h
        simp [sendAdmissionReviewToPolicyServer, hs] at h

/-- Witness for C3, at a 200 response whose body deserializes: the call
succeeds and returns the parsed review. -/
theorem sendAdmissionReview_error_iff_witness :
    sendAdmissionReviewToPolicyServer unmarshalW (.success 200 "body") =
      .ok ⟨⟨"uid-1", true⟩⟩
    ∧ ∃ body, HTTPResult.success 200 "body" = .success 200 body ∧
        unmarshalW body = .ok ⟨⟨"uid-1", true⟩⟩ :=
  ⟨rfl,
   (sendAdmissionReview_error_iff unmarshalW (.success 200 "body")).2 _ rfl⟩

/-- Claim C5, counterexample: when the namespace enumeration itself fails,
`ScanAllNamespaces` returns that enumeration error even though no
per-namespace scan error occurred, so the aggregate is not "exactly the
per-namespace errors (nil when none occurred)". -/
theorem scanAllNamespaces_enumError_notNil :
    (ScanAllNamespaces [] (some "enum failure") scanNsAllOk).1 =
      ["enum failure"]
    ∧ ([] : List String).filterMap scanNsAllOk = []
    ∧ ¬ (ScanAllNamespaces [] (some "enum failure") scanNsAllOk).1 = [] := by
  decide

/-- Claim C5 as amended: an all-namespaces scan attempts every namespace of
the enumerated list even when some namespace scans fail, and returns the
aggregation of the namespace-enumeration error (if any) followed by exactly
the per-namespace errors that occurred, in order — nil when neither
occurred. -/
theorem scanAllNamespaces_aggregation (nsItems : List String)
    (enumErr : Option String) (scanNs : String → Option String) :
    (ScanAllNamespaces nsItems enumErr scanNs).2 = nsItems
    ∧ (ScanAllNamespaces nsItems enumErr scanNs).1 =
        optErrList enumErr ++ nsItems.filterMap scanNs := by
  rw [ScanAllNamespaces, scanAll_foldl]
  simp

/-- Claim C4: when the initial lookup reports not-found, `Save` creates the
report (returning an error exactly when the create fails); on every other
initial outcome the update path runs: each update attempt writes back using
the version token re-read at that same attempt, the attempts are bounded by
`retry.DefaultRetry`'s five steps, exhaustion of the budget by conflicts
leaves the conflict as a logged-only retry error, and `Save` returns no
error, so the scan is not aborted. -/
theorem save_create_or_retryUpdate
    (getInit : Except RepoErr PersistedReport) (createRes : Option String)
    (getAt : Nat → Except RepoErr PersistedReport)
    (updateAt : Nat → Option RepoErr) :
    (getInit = .error .notFound →
      (Save getInit createRes getAt updateAt).created = true
      ∧ ((Save getInit createRes getAt updateAt).result = none ↔
          createRes = none))
    ∧ (getInit ≠ .error .notFound →
      (Save getInit createRes getAt updateAt).created = false
      ∧ (Save getInit createRes getAt updateAt).result = none
      ∧ (Save getInit createRes getAt updateAt).updateVersions.length ≤
          defaultRetrySteps
      ∧ (∀ (j : Nat) (v : String),
          (Save getInit createRes getAt updateAt).updateVersions.get? j =
            some v →
          ∃ obj, getAt j = .ok obj ∧ obj.resourceVersion = v)
      ∧ ((∀ j, (∃ obj, getAt j = .ok obj) ∧ updateAt j = some .conflict) →
          (Save getInit createRes getAt updateAt).retryErr = some .conflict
          ∧ (Save getInit createRes getAt updateAt).updateVersions.length =
              defaultRetrySteps)) := by
  constructor
  · intro h
    subst h
    cases createRes <;> simp [Save]
  · intro h
    have hsave : Save getInit createRes getAt updateAt =
        ⟨none, false,
         (retryOnConflictTrace getAt updateAt defaultRetrySteps 0).1,
         (retryOnConflictTrace getAt updateAt defaultRetrySteps 0).2⟩ := by
      cases getInit with
      | ok obj => simp [Save]
      | error e =>
          cases e with
          | notFound => exact absurd rfl h
          | conflict => simp [Save]
          | other msg => simp [Save]
    rw [hsave]
    refine ⟨rfl, rfl, retryTrace_length_le getAt updateAt _ _, ?_, ?_⟩
    · intro j v hj
      have h2 := retryTrace_versions getAt updateAt defaultRetrySteps 0 j v hj
      simpa using h2
    · intro hcfl
      exact retryTrace_allConflict getAt updateAt hcfl defaultRetrySteps 0

/-- Witness for C4: with an existing persisted object and an update that
conflicts on every attempt, `Save` still returns no error, attempts exactly
the five default-retry steps, and leaves the conflict as the logged retry
error. -/
theorem save_create_or_retryUpdate_witness :
    ((Except.ok ⟨"v0"⟩ : Except RepoErr PersistedReport) ≠ .error .notFound)
    ∧ (Save (.ok ⟨"v0"⟩) none getAtW updateAtW).result = none
    ∧ (Save (.ok ⟨"v0"⟩) none getAtW updateAtW).retryErr = some .conflict
    ∧ (Save (.ok ⟨"v0"⟩) none getAtW updateAtW).updateVersions.length =
        defaultRetrySteps := by
  have hne : (Except.ok ⟨"v0"⟩ : Except RepoErr PersistedReport) ≠
      .error .notFound := by simp
  have h := (save_create_or_retryUpdate (.ok ⟨"v0"⟩) none getAtW updateAtW).2
    hne
  have hcfl : ∀ j, (∃ obj, getAtW j = .ok obj) ∧ updateAtW j =
      some .conflict := fun j => ⟨⟨⟨Nat.repr j⟩, rfl⟩, rfl⟩
  exact ⟨hne, h.2.1, (h.2.2.2.2 hcfl).1, (h.2.2.2.2 hcfl).2⟩

/-- Claim C6: a policy with no object selector matches every resource, with
no error. -/
theorem policyMatches_noSelector (p : Policy) (r : Unstructured)
    (h : p.objectSelector = none) : policyMatches p r = (true, none) := by
  simp [policyMatches, h]

/-- Witness for C6, at the concrete no-selector policy and a pod. -/
theorem policyMatches_noSelector_witness :
    noSelPolicy.objectSelector = none
    ∧ policyMatches noSelPolicy pod1 = (true, none) :=
  ⟨rfl, policyMatches_noSelector noSelPolicy pod1 rfl⟩

/-- Claim C7: a policy whose selector compiles but excludes the resource's
labels yields `(false, nil)` from the matcher, and the engine issues no
evaluator call for that (policy, resource) pair while auditing the
resource against any policy list. -/
theorem policyMatches_selectorExcludes_noCall
    (p : Policy) (r : Unstructured) (sel : LabelSelector)
    (reqs : List Requirement)
    (hsel : p.objectSelector = some sel)
    (hcomp : LabelSelectorAsSelector sel = .ok reqs)
    (hex : selectorMatches reqs r.labels = false) :
    policyMatches p r = (false, none)
    ∧ ∀ (evalSrv : Policy → Unstructured → Except String AdmissionReview)
        (ps : List Policy),
        (p, r) ∉ (auditResource evalSrv ps r).calls := by
  have hpm : policyMatches p r = (false, none) := by
    simp [policyMatches, hsel, hcomp, hex]
  refine ⟨hpm, ?_⟩
  intro evalSrv ps hmem
  rw [auditResource] at hmem
  rcases auditResourceLoop_calls_mem evalSrv r ps _ _ _ _ hmem with
    h | ⟨hm, _⟩
  · simp at h
  · rw [hpm] at hm
    simp at hm

/-- Witness for C7: the app=web selector excludes the unlabelled pod, and
no evaluator call is issued for the pair while auditing the pod. -/
theorem policyMatches_selectorExcludes_noCall_witness :
    selPolicy.objectSelector = some ⟨[("app", "web")], []⟩
    ∧ LabelSelectorAsSelector ⟨[("app", "web")], []⟩ = .ok selPolicyReqs
    ∧ selectorMatches selPolicyReqs pod1.labels = false
    ∧ policyMatches selPolicy pod1 = (false, none)
    ∧ (selPolicy, pod1) ∉ (auditResource evalAllow [selPolicy] pod1).calls :=
  have h := policyMatches_selectorExcludes_noCall selPolicy pod1
    ⟨[("app", "web")], []⟩ selPolicyReqs rfl rfl rfl
  ⟨rfl, rfl, rfl, h.1, h.2 evalAllow [selPolicy]⟩

/-- Claim C8: a malformed selector makes the matcher return false together
with the compilation error, and the engine skips the pair — auditing the
resource with that policy in the list is the same as auditing it without
(no evaluator call, scanning continues with the remaining policies). -/
theorem policyMatches_malformed_skips
    (p : Policy) (r : Unstructured) (sel : LabelSelector) (e : String)
    (hsel : p.objectSelector = some sel)
    (hcomp : LabelSelectorAsSelector sel = .error e) :
    policyMatches p r = (false, some e)
    ∧ ∀ (evalSrv : Policy → Unstructured → Except String AdmissionReview)
        (rest : List Policy),
        auditResource evalSrv (p :: rest) r = auditResource evalSrv rest r
    := by
  have hpm : policyMatches p r = (false, some e) := by
    simp [policyMatches, hsel, hcomp]
  refine ⟨hpm, ?_⟩
  intro evalSrv rest
  rw [auditResource, auditResource]
  simp [auditResourceLoop, hpm]

/-- Witness for C8: the unrecognised operator fails compilation; the policy
is skipped and auditing continues with the remaining policy untouched. -/
theorem policyMatches_malformed_skips_witness :
    badSelPolicy.objectSelector = some ⟨[], [⟨"app", "BadOp", []⟩]⟩
    ∧ LabelSelectorAsSelector ⟨[], [⟨"app", "BadOp", []⟩]⟩ =
        .error "is not a valid label selector operator"
    ∧ policyMatches badSelPolicy pod1 =
        (false, some "is not a valid label selector operator")
    ∧ auditResource evalAllow [badSelPolicy, noSelPolicy] pod1 =
        auditResource evalAllow [noSelPolicy] pod1 :=
  have h := policyMatches_malformed_skips badSelPolicy pod1
    ⟨[], [⟨"app", "BadOp", []⟩]⟩ "is not a valid label selector operator"
    rfl rfl
  ⟨rfl, rfl, h.1, h.2 evalAllow [noSelPolicy]⟩

/-- Claim C9, counterexample: on the freshly constructed store, where no
report was ever Put for the cluster-wide scope, the cluster-wide Get does
not return a NotFoundError — it succeeds with the initial empty cluster
report. -/
theorem getClusterPolicyReport_freshStore_ok :
    GetClusterPolicyReport MockNewPolicyReportStore =
      .ok (NewClusterPolicyReport "clusterwide")
    ∧ exOk (GetClusterPolicyReport MockNewPolicyReportStore) = true :=
  ⟨rfl, rfl⟩

/-- Claim C9 as amended: for namespace scopes, Get returns the not-found
error exactly when no report is cached for the namespace and returns a
previously Put report exactly; the cluster-wide Get never fails: it
returns the last Put cluster report, and on a fresh store the initial
empty cluster report. -/
theorem store_get_semantics :
    (∀ (s : PolicyReportStore) (ns : String),
        s.namespacedPolicyReports ns = none →
        GetPolicyReport s ns = .error "report not found")
    ∧ (∀ (s : PolicyReportStore) (r : PolicyReport),
        GetPolicyReport (AddPolicyReport s r).1 r.resNamespace = .ok r)
    ∧ (∀ (s : PolicyReportStore) (cr : ClusterPolicyReport),
        GetClusterPolicyReport (AddClusterPolicyReport s cr).1 = .ok cr)
    ∧ GetClusterPolicyReport MockNewPolicyReportStore =
        .ok (NewClusterPolicyReport "clusterwide") := by
  refine ⟨?_, ?_, ?_, rfl⟩
  · intro s ns h
    simp [GetPolicyReport, h]
  · intro s r
    simp [GetPolicyReport, AddPolicyReport]
  · intro s cr
    simp [GetClusterPolicyReport, AddClusterPolicyReport]

/-- Witness for the amended C9, at the fresh store and a concrete report. -/
theorem store_get_semantics_witness :
    MockNewPolicyReportStore.namespacedPolicyReports "ns1" = none
    ∧ GetPolicyReport MockNewPolicyReportStore "ns1" =
        .error "report not found"
    ∧ GetPolicyReport
        (AddPolicyReport MockNewPolicyReportStore ⟨"pod1", "ns1", []⟩).1
        "ns1" = .ok ⟨"pod1", "ns1", []⟩ :=
  ⟨rfl, store_get_semantics.1 MockNewPolicyReportStore "ns1" rfl,
   store_get_semantics.2.1 MockNewPolicyReportStore ⟨"pod1", "ns1", []⟩⟩

/-- Claim C10: `AddPolicyReport` and `UpdatePolicyReport` are extensionally
equal: on every store state and namespaced report they produce the same
resulting state (the report keyed by its namespace overwriting any existing
entry) and both return a nil error. -/
theorem addPolicyReport_eq_updatePolicyReport (s : PolicyReportStore)
    (r : PolicyReport) :
    AddPolicyReport s r = UpdatePolicyReport s r
    ∧ (AddPolicyReport s r).2 = none
    ∧ (UpdatePolicyReport s r).2 = none
    ∧ (AddPolicyReport s r).1.namespacedPolicyReports r.resNamespace =
        some r :=
  ⟨rfl, rfl, rfl, by simp [AddPolicyReport]⟩

end AuditScanner
